import Mathlib

/-!
Verification of the port-mapping logic of the L1 test-switch driver
(`test_switch/driver_commands.py`).

The driver keeps a per-device mapping file (a YAML dictionary from port
address to port address) and mutates it through a scoped transaction
manager.  We embed the mapping dictionary as an insertion-ordered
association list of strings, mirror the pure logic of every operation
(`map_bidi`, `map_uni`, `map_tap`, `map_clear`, `map_clear_to`, and the
helper checks), and model the transaction manager's enter step.

Because `MappingTransManager.__exit__` serializes the in-memory mapping
unconditionally — even when the guarded body raised — every operation is
embedded as a function returning both the outcome (success or the raised
error) and the mapping state that gets persisted on exit.
-/

set_option autoImplicit false

namespace TestSwitch

/-- The persisted mapping dictionary: insertion-ordered key/value pairs of
port-address strings, keys unique (as in a Python `dict`). -/
abbrev MappingSet := List (String × String)

/-- Python `mappings.get(k)`: value of the first entry with key `k`. -/
def msGet (m : MappingSet) (k : String) : Option String :=
  match m with
  | [] => none
  | (k0, v0) :: rest => if k0 = k then some v0 else msGet rest k

/-- Python `mappings[k] = v`: update the entry in place if the key exists
(keeping its position, as a Python `dict` does), else append it. -/
def msSet (m : MappingSet) (k : String) (v : String) : MappingSet :=
  match m with
  | [] => [(k, v)]
  | (k0, v0) :: rest => if k0 = k then (k0, v) :: rest else (k0, v0) :: msSet rest k v

/-- Python `mappings.pop(k, None)`: drop the entry with key `k`, if any. -/
def msPop (m : MappingSet) (k : String) : MappingSet :=
  match m with
  | [] => []
  | (k0, v0) :: rest => if k0 = k then rest else (k0, v0) :: msPop rest k

/-- Whether the character list `pat` occurs at the head of `s`. -/
def charsStartWith : List Char → List Char → Bool
  | [], _ => true
  | _ :: _, [] => false
  | p :: ps, c :: cs => p = c && charsStartWith ps cs

/-- Whether the character list `pat` occurs anywhere inside `s`. -/
def charsContain (pat : List Char) (s : List Char) : Bool :=
  match s with
  | [] => charsStartWith pat []
  | _ :: cs => charsStartWith pat s || charsContain pat cs

/-- Python `s.lower()`, character by character (ASCII-relevant cases agree). -/
def lowerStr (s : String) : List Char :=
  s.toList.map Char.toLower

/-- The class constant `DriverCommands.EXCEPTION = 'except'`. -/
def EXCEPTION : String := "except"

/-- Python truthiness-plus-marker test `data and EXCEPTION in data.lower()`
from `_check_exception`: the stored value is a fault marker iff it is
non-empty and its lower-cased form contains `"except"`. -/
def isExcVal (data : String) : Bool :=
  data ≠ "" && charsContain EXCEPTION.toList (lowerStr data)

/-- Errors raised by the driver's mapping operations. -/
inductive DriverErr where
  /-- `raise Exception(data)` in `_check_exception`; carries the stored value. -/
  | exceptionPort (data : String)
  /-- the "DST port already used in {act_src}->{dst}" error of `_check_mapping_exist`. -/
  | mappingConflict (actSrc : String) (dst : String)
  deriving DecidableEq, Repr

/-- `DriverCommands._check_exception(port, mappings)`. -/
def checkException (port : String) (m : MappingSet) : Except DriverErr Unit :=
  match msGet m port with
  | none => .ok ()
  | some data => if isExcVal data then .error (.exceptionPort data) else .ok ()

/-- `DriverCommands._check_mapping_exist(src, dst, mappings)`; the first
argument is the module's `override_mapping` flag. -/
def checkMappingExist (override : Bool) (src dst : String) (m : MappingSet) :
    Except DriverErr Unit :=
  if override then .ok ()
  else
    match msGet m dst with
    | none => .ok ()
    | some actSrc =>
      if actSrc ≠ "" && actSrc ≠ src then .error (.mappingConflict actSrc dst)
      else .ok ()

/-- `DriverCommands._del_mappings(ports, mappings)`: for each port, check it
for the exception marker against the current (already partially popped)
mapping, then pop it.  The second component is the mapping state persisted
by `__exit__`, whether or not an error was raised. -/
def delMappings (ports : List String) (m : MappingSet) :
    Except DriverErr Unit × MappingSet :=
  match ports with
  | [] => (.ok (), m)
  | p :: rest =>
    match checkException p m with
    | .error e => (.error e, m)
    | .ok _ => delMappings rest (msPop m p)

/-- `DriverCommands.map_bidi(src_port, dst_port)` (body of the transaction;
the simulated delay has no effect on the mapping). -/
def mapBidi (override : Bool) (src dst : String) (m : MappingSet) :
    Except DriverErr Unit × MappingSet :=
  match checkException src m with
  | .error e => (.error e, m)
  | .ok _ =>
    match checkException dst m with
    | .error e => (.error e, m)
    | .ok _ =>
      match checkMappingExist override src dst m with
      | .error e => (.error e, m)
      | .ok _ =>
        match checkMappingExist override dst src m with
        | .error e => (.error e, m)
        | .ok _ => (.ok (), msSet (msSet m src dst) dst src)

/-- The destination loop of `map_uni`: check each destination for the
exception marker and the override conflict, then set `dst -> src`. -/
def mapUniLoop (override : Bool) (src : String) (dsts : List String) (m : MappingSet) :
    Except DriverErr Unit × MappingSet :=
  match dsts with
  | [] => (.ok (), m)
  | dst :: rest =>
    match checkException dst m with
    | .error e => (.error e, m)
    | .ok _ =>
      match checkMappingExist override src dst m with
      | .error e => (.error e, m)
      | .ok _ => mapUniLoop override src rest (msSet m dst src)

/-- `DriverCommands.map_uni(src_port, dst_ports)`. -/
def mapUni (override : Bool) (src : String) (dsts : List String) (m : MappingSet) :
    Except DriverErr Unit × MappingSet :=
  match checkException src m with
  | .error e => (.error e, m)
  | .ok _ => mapUniLoop override src dsts m

/-- `DriverCommands.map_tap(src_port, dst_ports)`: the source returns
`self.map_uni(src_port, dst_ports)` verbatim. -/
def mapTap (override : Bool) (src : String) (dsts : List String) (m : MappingSet) :
    Except DriverErr Unit × MappingSet :=
  mapUni override src dsts m

/-- The collection phase of `map_clear`: `act_ports` gathers, over all input
ports, the keys of every stored entry whose key or value equals the port,
against the unmutated mapping. -/
def collectClear (ports : List String) (m : MappingSet) : List String :=
  match ports with
  | [] => []
  | p :: rest =>
    (m.filter (fun kv => kv.2 = p || kv.1 = p)).map (fun kv => kv.1)
      ++ collectClear rest m

/-- `DriverCommands.map_clear(ports)`. -/
def mapClear (ports : List String) (m : MappingSet) :
    Except DriverErr Unit × MappingSet :=
  delMappings (collectClear ports m) m

/-- `DriverCommands.map_clear_to(src_port, dst_ports)`: after the exception
check on `src`, collect the destinations whose stored value equals `src`,
then delete them. -/
def mapClearTo (src : String) (dsts : List String) (m : MappingSet) :
    Except DriverErr Unit × MappingSet :=
  match checkException src m with
  | .error e => (.error e, m)
  | .ok _ => delMappings (dsts.filter (fun d => msGet m d = some src)) m

/-- Outcome of `self._lock_file.acquire()` inside `__enter__`. -/
abbrev AcquireResult := Except Unit Unit

/-- Outcome of `open(...); yaml.load(...)` inside `__enter__`: `.error` when
opening or parsing raises (missing or malformed file), `.ok none` when
`yaml.load` returns `None` (empty file), `.ok (some m)` otherwise. -/
abbrev ReadResult := Except Unit (Option MappingSet)

/-- `MappingTransManager.__enter__`.  The `return` inside the `finally`
block swallows any exception raised by the lock acquisition or the
read/parse step, so `__enter__` never raises: a failed acquire skips the
read and yields `self._mappings = None`, a failed read also leaves it
`None`, and `self._mappings or {}` turns `None` (and an empty parse) into
the empty dictionary. -/
def transEnter (acquire : AcquireResult) (readStep : ReadResult) : MappingSet :=
  match acquire with
  | .error _ => []
  | .ok _ =>
    match readStep with
    | .error _ => []
    | .ok none => []
    | .ok (some ms) => if ms.isEmpty then [] else ms

/-- A whole transaction: `__enter__` produces the mapping the body runs on;
`__exit__` (modelled inside each body's second component) persists the
resulting mapping unconditionally. -/
def transaction (acquire : AcquireResult) (readStep : ReadResult)
    (body : MappingSet → Except DriverErr Unit × MappingSet) :
    Except DriverErr Unit × MappingSet :=
  body (transEnter acquire readStep)

/-- The store of the spec's exception-marker scenario: port `P1` pre-seeded
with the fault marker `"except: fiber fault"`. -/
def seededStore : MappingSet := [("P1", "except: fiber fault")]

/-- The store produced by `map_bidi("X", "my-except-port")` from an empty
store: the peer port's ordinary address happens to contain the marker token. -/
def exceptNamedStore : MappingSet := [("X", "my-except-port"), ("my-except-port", "X")]

/-! ### Lemmas about the association-list dictionary operations -/

theorem msGet_msSet (m : MappingSet) (k v k' : String) :
    msGet (msSet m k v) k' = if k = k' then some v else msGet m k' := by
  induction m with
  | nil => simp [msSet, msGet]
  | cons kv rest ih =>
    obtain ⟨k0, v0⟩ := kv
    by_cases h0 : k0 = k
    · subst h0
      by_cases h1 : k0 = k' <;> simp [msSet, msGet, h1]
    · by_cases h1 : k0 = k'
      · subst h1
        have : ¬k = k0 := fun h => h0 h.symm
        simp [msSet, msGet, h0, this]
      · simp [msSet, msGet, h0, h1, ih]

theorem msSet_same (m : MappingSet) (k v : String) (h : msGet m k = some v) :
    msSet m k v = m := by
  induction m with
  | nil => simp [msGet] at h
  | cons kv rest ih =>
    obtain ⟨k0, v0⟩ := kv
    by_cases h0 : k0 = k
    · subst h0
      simp [msGet] at h
      simp [msSet, h]
    · simp [msGet, h0] at h
      simp [msSet, h0, ih h]

theorem msPop_of_none (m : MappingSet) (k : String) (h : msGet m k = none) :
    msPop m k = m := by
  induction m with
  | nil => rfl
  | cons kv rest ih =>
    obtain ⟨k0, v0⟩ := kv
    by_cases h0 : k0 = k
    · simp [msGet, h0] at h
    · simp [msGet, h0] at h
      simp [msPop, h0, ih h]

theorem msGet_msPop_ne (m : MappingSet) (k q : String) (h : q ≠ k) :
    msGet (msPop m k) q = msGet m q := by
  induction m with
  | nil => rfl
  | cons kv rest ih =>
    obtain ⟨k0, v0⟩ := kv
    by_cases h0 : k0 = k
    · subst h0
      have : ¬k0 = q := fun hq => h (hq.symm)
      simp [msPop, msGet, this]
    · by_cases h1 : k0 = q <;> simp [msPop, msGet, h0, h1, h, ih]

theorem msGet_none_iff (m : MappingSet) (k : String) :
    msGet m k = none ↔ k ∉ m.map Prod.fst := by
  induction m with
  | nil => simp [msGet]
  | cons kv rest ih =>
    obtain ⟨k0, v0⟩ := kv
    simp only [List.map_cons, List.mem_cons, msGet]
    by_cases h0 : k0 = k
    · simp [h0]
    · have hne : ¬k = k0 := fun h => h0 h.symm
      simp [h0, hne, ih]

theorem msGet_msPop_self (m : MappingSet) (k : String)
    (h : (m.map Prod.fst).Nodup) : msGet (msPop m k) k = none := by
  induction m with
  | nil => rfl
  | cons kv rest ih =>
    obtain ⟨k0, v0⟩ := kv
    simp only [List.map_cons, List.nodup_cons] at h
    by_cases h0 : k0 = k
    · have hnk := (msGet_none_iff rest k).2 (h0 ▸ h.1)
      simp [msPop, h0, hnk]
    · simp [msPop, msGet, h0, ih h.2]

theorem msPop_eq_filter (m : MappingSet) (k : String)
    (h : (m.map Prod.fst).Nodup) :
    msPop m k = m.filter (fun kv => kv.1 ≠ k) := by
  induction m with
  | nil => rfl
  | cons kv rest ih =>
    obtain ⟨k0, v0⟩ := kv
    simp only [List.map_cons, List.nodup_cons] at h
    by_cases h0 : k0 = k
    · have hrest : rest.filter (fun kv => kv.1 ≠ k) = rest :=
        List.filter_eq_self.2 fun a ha =>
          decide_eq_true fun hk : a.1 = k =>
            (h0 ▸ h.1) (hk ▸ List.mem_map_of_mem Prod.fst ha)
      have h1 : msPop ((k0, v0) :: rest) k = rest := by simp [msPop, h0]
      have h2 : ((k0, v0) :: rest).filter (fun kv => kv.1 ≠ k) = rest := by
        rw [List.filter_cons, if_neg (by simp [h0])]
        exact hrest
      rw [h1, h2]
    · have h1 : msPop ((k0, v0) :: rest) k = (k0, v0) :: msPop rest k := by
        simp [msPop, h0]
      rw [h1, List.filter_cons, if_pos (by simp [h0]), ih h.2]

theorem msGet_of_mem (m : MappingSet) (k v : String)
    (h : (m.map Prod.fst).Nodup) (hm : (k, v) ∈ m) : msGet m k = some v := by
  induction m with
  | nil => simp at hm
  | cons kv rest ih =>
    obtain ⟨k0, v0⟩ := kv
    simp only [List.map_cons, List.nodup_cons] at h
    rcases List.mem_cons.1 hm with heq | hmem
    · have hk : k0 = k := (congrArg Prod.fst heq).symm
      have hv : v0 = v := (congrArg Prod.snd heq).symm
      simp [msGet, hk, hv]
    · by_cases h0 : k0 = k
      · have hmap : k ∈ rest.map Prod.fst := by
          simpa using List.mem_map_of_mem Prod.fst hmem
        exact absurd hmap (h0 ▸ h.1)
      · simp [msGet, h0, ih h.2 hmem]

theorem msPop_sublist (m : MappingSet) (k : String) : (msPop m k).Sublist m := by
  induction m with
  | nil => exact List.Sublist.refl []
  | cons kv rest ih =>
    obtain ⟨k0, v0⟩ := kv
    by_cases h0 : k0 = k
    · rw [show msPop ((k0, v0) :: rest) k = rest from by simp [msPop, h0]]
      exact List.sublist_cons_self (k0, v0) rest
    · rw [show msPop ((k0, v0) :: rest) k = (k0, v0) :: msPop rest k from by simp [msPop, h0]]
      exact ih.cons₂ (k0, v0)

theorem checkException_of_get_none (p : String) (m : MappingSet)
    (h : msGet m p = none) : checkException p m = .ok () := by
  unfold checkException
  rw [h]

theorem checkException_of_get_ok (p : String) (m : MappingSet) (v : String)
    (hg : msGet m p = some v) (hv : isExcVal v = false) :
    checkException p m = .ok () := by
  unfold checkException
  rw [hg]
  simp [hv]

/-- When every listed port's current value is free of the exception marker
and the map's keys are unique, `_del_mappings` succeeds and removes exactly
the entries whose key is listed. -/
theorem delMappings_filter (ps : List String) (m : MappingSet)
    (hnd : (m.map Prod.fst).Nodup)
    (hv : ∀ p ∈ ps, ∀ v, msGet m p = some v → isExcVal v = false) :
    delMappings ps m = (.ok (), m.filter (fun kv => !(ps.contains kv.1))) := by
  induction ps generalizing m with
  | nil =>
    unfold delMappings
    rw [List.filter_eq_self.2 (fun a _ => by simp)]
  | cons p rest ih =>
    unfold delMappings
    cases hg : msGet m p with
    | none =>
      rw [checkException_of_get_none p m hg, msPop_of_none m p hg]
      rw [ih m hnd (fun q hq v hgq => hv q (List.mem_cons_of_mem p hq) v hgq)]
      have hcongr : ∀ kv ∈ m, (!(rest.contains kv.1)) = (!((p :: rest).contains kv.1)) := by
        intro kv hkv
        have hne : kv.1 ≠ p := by
          intro hkp
          exact (msGet_none_iff m p).1 hg (hkp ▸ List.mem_map_of_mem Prod.fst hkv)
        simp [List.contains_cons, hne]
      rw [List.filter_congr hcongr]
    | some v =>
      have hvf : isExcVal v = false := hv p (List.mem_cons_self p rest) v hg
      rw [checkException_of_get_ok p m v hg hvf]
      have hndp : ((msPop m p).map Prod.fst).Nodup :=
        ((msPop_sublist m p).map Prod.fst).nodup hnd
      have hvp : ∀ q ∈ rest, ∀ w, msGet (msPop m p) q = some w → isExcVal w = false := by
        intro q hq w hgw
        by_cases hqp : q = p
        · rw [hqp, msGet_msPop_self m p hnd] at hgw
          exact absurd hgw (by simp)
        · rw [msGet_msPop_ne m p q hqp] at hgw
          exact hv q (List.mem_cons_of_mem p hq) w hgw
      rw [ih (msPop m p) hndp hvp, msPop_eq_filter m p hnd, List.filter_filter]
      have hcongr : ∀ kv ∈ m,
          ((!(rest.contains kv.1)) && (decide (kv.1 ≠ p))) = (!((p :: rest).contains kv.1)) := by
        intro kv _
        by_cases hkp : kv.1 = p <;> simp [List.contains_cons, hkp, Bool.and_comm]
      rw [List.filter_congr hcongr]

/-- Repeating `map_bidi(src, dst)` on a store that already holds both
entries `src -> dst` and `dst -> src` (with neither address carrying the
marker token) is a no-op success, under either override setting. -/
theorem mapBidi_already_connected (ov : Bool) (src dst : String) (m : MappingSet)
    (hs : isExcVal src = false) (hd : isExcVal dst = false)
    (h1 : msGet m src = some dst) (h2 : msGet m dst = some src) :
    mapBidi ov src dst m = (.ok (), m) := by
  have hcs : checkException src m = .ok () := checkException_of_get_ok src m dst h1 hd
  have hcd : checkException dst m = .ok () := checkException_of_get_ok dst m src h2 hs
  have hm1 : checkMappingExist ov src dst m = .ok () := by
    unfold checkMappingExist
    cases ov
    · simp [h2]
    · simp
  have hm2 : checkMappingExist ov dst src m = .ok () := by
    unfold checkMappingExist
    cases ov
    · simp [h1]
    · simp
  unfold mapBidi
  simp only [hcs, hcd, hm1, hm2]
  rw [msSet_same m src dst h1, msSet_same m dst src h2]

/-- A successful `map_bidi(src, dst)` run leaves exactly the double update
of the input store. -/
theorem mapBidi_ok_elim (ov : Bool) (src dst : String) (m mres : MappingSet)
    (h : mapBidi ov src dst m = (.ok (), mres)) :
    mres = msSet (msSet m src dst) dst src := by
  unfold mapBidi at h
  split at h
  · exact absurd h (by simp)
  split at h
  · exact absurd h (by simp)
  split at h
  · exact absurd h (by simp)
  split at h
  · exact absurd h (by simp)
  injection h with h1 h2
  exact h2.symm

/-- Helper for the C9 characterization: `_check_exception(p, mappings)`
raises exactly when the mapping holds key `p` with a non-empty value whose
lower-cased form contains the substring `"except"`. -/
theorem checkException_not_ok_iff (p : String) (m : MappingSet) :
    checkException p m ≠ .ok ()
      ↔ ∃ v, msGet m p = some v ∧ v ≠ "" ∧ charsContain EXCEPTION.toList (lowerStr v) = true := by
  unfold checkException
  cases hg : msGet m p with
  | none => simp
  | some data =>
    unfold isExcVal
    by_cases h1 : data = ""
    · simp [h1]
    · by_cases h2 : charsContain EXCEPTION.toList (lowerStr data) = true
      · simp [h1, h2]
      · simp [h1, h2]

/-! ### Claim theorems -/

/-- C1 (amended): with `P1` pre-seeded as `"P1" -> "except: fiber fault"`,
`map_bidi` on either side, `map_uni` with `P1` as source or destination,
`map_tap`, `map_clear` naming `P1`, and `map_clear_to` with `P1` as source
all fail with the stored marker text; the persisted store is unchanged in
every such case except `map_uni` (and so `map_tap`) with `P1` after other
destinations, which persists the entries already set for the earlier
destinations; and `map_clear_to` with `P1` only among the destinations and
a stored value differing from the source succeeds without raising. -/
theorem exception_marker_blocks_operations (ov : Bool) :
    mapBidi ov "P1" "B" seededStore = (.error (.exceptionPort "except: fiber fault"), seededStore)
    ∧ mapBidi ov "B" "P1" seededStore = (.error (.exceptionPort "except: fiber fault"), seededStore)
    ∧ mapUni ov "P1" ["B"] seededStore = (.error (.exceptionPort "except: fiber fault"), seededStore)
    ∧ mapUni ov "A" ["P1"] seededStore = (.error (.exceptionPort "except: fiber fault"), seededStore)
    ∧ mapTap ov "P1" ["B"] seededStore = (.error (.exceptionPort "except: fiber fault"), seededStore)
    ∧ mapUni ov "A" ["B", "P1"] seededStore
        = (.error (.exceptionPort "except: fiber fault"), msSet seededStore "B" "A")
    ∧ mapClear ["P1"] seededStore = (.error (.exceptionPort "except: fiber fault"), seededStore)
    ∧ mapClearTo "P1" ["B"] seededStore
        = (.error (.exceptionPort "except: fiber fault"), seededStore)
    ∧ mapClearTo "A" ["P1"] seededStore = (.ok (), seededStore) := by
  cases ov <;> exact ⟨rfl, rfl, rfl, rfl, rfl, rfl, rfl, rfl, rfl⟩

/-- C1 counterexample: `map_uni("A", ["B", "P1"])` against the pre-seeded
store fails with the marker text, yet the persisted store is NOT unchanged:
the entry `B -> A` set before the failing destination is committed. -/
theorem exception_marker_partial_commit :
    (mapUni true "A" ["B", "P1"] seededStore).1 = .error (.exceptionPort "except: fiber fault")
    ∧ (mapUni true "A" ["B", "P1"] seededStore).2 ≠ seededStore :=
  ⟨rfl, by decide⟩

/-- C2: when the lock acquisition step of `MappingTransManager.__enter__`
raises, the `return` inside the `finally` block swallows the exception, so
the transaction does NOT fail: the body runs against an empty mapping and
`__exit__` persists its result — here a successful `map_bidi("A", "B")`
writing two entries to a file whose lock was never acquired. -/
theorem lock_failure_swallowed (r : ReadResult) :
    transEnter (.error ()) r = []
    ∧ transaction (.error ()) r (mapBidi true "A" "B") = (.ok (), [("A", "B"), ("B", "A")]) :=
  ⟨rfl, rfl⟩

/-- C3 counterexample: in a store holding `D -> S1` where `S2`'s own stored
value is exception-marked, connecting `D` to `S2` with override disabled
raises the exception-port error (not a mapping-conflict error), so the
claim's unqualified "raises a mapping-conflict error" fails. -/
theorem override_policy_counterexample :
    mapUni false "S2" ["D"] [("D", "S1"), ("S2", "except: y")]
      = (.error (.exceptionPort "except: y"), [("D", "S1"), ("S2", "except: y")])
    ∧ DriverErr.exceptionPort "except: y" ≠ DriverErr.mappingConflict "S1" "D" :=
  ⟨rfl, by decide⟩

/-- C3 (amended): in any store holding `dst -> src1` with `src1` a genuine
(non-empty, unmarked) source, `src2 ≠ src1`, and `src2` itself passing the
exception check, connecting `dst` to `src2` with override disabled raises
the mapping-conflict error and leaves the whole store unchanged, for both
`map_uni` and `map_bidi`; with override enabled the same calls succeed and
the store afterwards holds `dst -> src2`. -/
theorem override_policy (m : MappingSet) (dst src1 src2 : String)
    (hget : msGet m dst = some src1)
    (h1e : isExcVal src1 = false)
    (h1ne : src1 ≠ "")
    (hne : src1 ≠ src2)
    (h2c : checkException src2 m = .ok ()) :
    mapUni false src2 [dst] m = (.error (.mappingConflict src1 dst), m)
    ∧ mapBidi false src2 dst m = (.error (.mappingConflict src1 dst), m)
    ∧ ((mapUni true src2 [dst] m).1 = .ok ()
        ∧ msGet (mapUni true src2 [dst] m).2 dst = some src2)
    ∧ ((mapBidi true src2 dst m).1 = .ok ()
        ∧ msGet (mapBidi true src2 dst m).2 dst = some src2) := by
  have hcd : checkException dst m = .ok () := checkException_of_get_ok dst m src1 hget h1e
  have hcm : checkMappingExist false src2 dst m = .error (.mappingConflict src1 dst) := by
    unfold checkMappingExist
    simp [hget, h1ne, fun h : src1 = src2 => hne h]
  have hmt : ∀ a b : String, checkMappingExist true a b m = .ok () := by
    intro a b
    unfold checkMappingExist
    simp
  refine ⟨?_, ?_, ?_, ?_⟩
  · unfold mapUni mapUniLoop
    simp only [h2c, hcd, hcm]
  · unfold mapBidi
    simp only [h2c, hcd, hcm]
  · constructor
    · unfold mapUni mapUniLoop
      simp only [h2c, hcd, hmt]
      rfl
    · unfold mapUni mapUniLoop
      simp only [h2c, hcd, hmt]
      show msGet (msSet m dst src2) dst = some src2
      rw [msGet_msSet]
      simp
  · constructor
    · unfold mapBidi
      simp [h2c, hcd, hmt]
    · unfold mapBidi
      simp only [h2c, hcd, hmt]
      show msGet (msSet (msSet m src2 dst) dst src2) dst = some src2
      rw [msGet_msSet]
      simp

/-- C3 witness: the amended override-policy theorem applied to the concrete
store `{D -> S1}` with second source `S2`. -/
theorem override_policy_witness :
    (msGet [("D", "S1")] "D" = some "S1" ∧ isExcVal "S1" = false ∧ "S1" ≠ ""
      ∧ "S1" ≠ "S2" ∧ checkException "S2" [("D", "S1")] = .ok ())
    ∧ mapUni false "S2" ["D"] [("D", "S1")]
        = (.error (.mappingConflict "S1" "D"), [("D", "S1")])
    ∧ mapBidi false "S2" "D" [("D", "S1")]
        = (.error (.mappingConflict "S1" "D"), [("D", "S1")])
    ∧ ((mapUni true "S2" ["D"] [("D", "S1")]).1 = .ok ()
        ∧ msGet (mapUni true "S2" ["D"] [("D", "S1")]).2 "D" = some "S2")
    ∧ ((mapBidi true "S2" "D" [("D", "S1")]).1 = .ok ()
        ∧ msGet (mapBidi true "S2" "D" [("D", "S1")]).2 "D" = some "S2") :=
  ⟨⟨rfl, rfl, by decide, by decide, rfl⟩,
    override_policy [("D", "S1")] "D" "S1" "S2" rfl rfl (by decide) (by decide) rfl⟩

/-- C4: `map_bidi(src, dst)` is idempotent for addresses free of the marker
token: a successful run stores `src -> dst` and `dst -> src`, and repeating
the call on the resulting store is a no-op success yielding the identical
store, under both override settings. -/
theorem map_bidi_idempotent (ov : Bool) (src dst : String) (m mres : MappingSet)
    (hs : isExcVal src = false) (hd : isExcVal dst = false)
    (h : mapBidi ov src dst m = (.ok (), mres)) :
    mapBidi ov src dst mres = (.ok (), mres)
      ∧ msGet mres src = some dst ∧ msGet mres dst = some src := by
  have hm := mapBidi_ok_elim ov src dst m mres h
  subst hm
  have g2 : msGet (msSet (msSet m src dst) dst src) dst = some src := by
    rw [msGet_msSet]
    simp
  have g1 : msGet (msSet (msSet m src dst) dst src) src = some dst := by
    rw [msGet_msSet]
    by_cases hds : dst = src
    · simp [hds]
    · rw [if_neg hds, msGet_msSet, if_pos rfl]
  exact ⟨mapBidi_already_connected ov src dst _ hs hd g1 g2, g1, g2⟩

/-- C4 witness: idempotence of `map_bidi("A", "B")` starting from the empty
store. -/
theorem map_bidi_idempotent_witness :
    (isExcVal "A" = false ∧ isExcVal "B" = false
      ∧ mapBidi true "A" "B" [] = (.ok (), [("A", "B"), ("B", "A")]))
    ∧ mapBidi true "A" "B" [("A", "B"), ("B", "A")] = (.ok (), [("A", "B"), ("B", "A")])
      ∧ msGet [("A", "B"), ("B", "A")] "A" = some "B"
      ∧ msGet [("A", "B"), ("B", "A")] "B" = some "A" :=
  ⟨⟨rfl, rfl, rfl⟩, map_bidi_idempotent true "A" "B" [] [("A", "B"), ("B", "A")] rfl rfl rfl⟩

/-- C5: a transaction whose read step raises (missing or unparseable file)
or parses to nothing (empty file, or an empty dictionary) yields the empty
Mapping Set without raising, and a subsequent connect behaves exactly as on
an empty store. -/
theorem tolerant_read (ov : Bool) (src dst : String) :
    transEnter (.ok ()) (.error ()) = []
    ∧ transEnter (.ok ()) (.ok none) = []
    ∧ transEnter (.ok ()) (.ok (some [])) = []
    ∧ transaction (.ok ()) (.error ()) (mapBidi ov src dst) = mapBidi ov src dst []
    ∧ transaction (.ok ()) (.ok none) (mapBidi ov src dst) = mapBidi ov src dst [] :=
  ⟨rfl, rfl, rfl, rfl, rfl⟩

/-- C6: from the empty store, `map_uni("A", ["B", "C"])` succeeds leaving
`{B -> A, C -> A}`, and `map_clear(["A"])` then succeeds leaving the store
empty, under both override settings. -/
theorem uni_then_clear_scenario (ov : Bool) :
    mapUni ov "A" ["B", "C"] [] = (.ok (), [("B", "A"), ("C", "A")])
    ∧ mapClear ["A"] [("B", "A"), ("C", "A")] = (.ok (), []) := by
  cases ov <;> exact ⟨rfl, rfl⟩

/-- C7: on a uniquely-keyed store, with a source that passes the exception
check and whose own address carries no marker, `map_clear_to(src, dsts)`
succeeds and removes exactly the keys in `dsts` whose stored value equals
`src`, leaving every other entry unchanged. -/
theorem map_clear_to_removes_exactly (src : String) (dsts : List String) (m : MappingSet)
    (hnd : (m.map Prod.fst).Nodup)
    (hse : checkException src m = .ok ())
    (hsv : isExcVal src = false) :
    mapClearTo src dsts m =
      (.ok (), m.filter (fun kv => !(dsts.contains kv.1 && kv.2 = src))) := by
  unfold mapClearTo
  simp only [hse]
  have hv : ∀ p ∈ dsts.filter (fun d => msGet m d = some src), ∀ v,
      msGet m p = some v → isExcVal v = false := by
    intro p hp v hgv
    have hps : msGet m p = some src := by
      have := (List.mem_filter.1 hp).2
      simpa using this
    rw [hps] at hgv
    injection hgv with hvv
    exact hvv ▸ hsv
  rw [delMappings_filter _ m hnd hv]
  have hpt : ∀ kv ∈ m,
      (!((dsts.filter (fun d => msGet m d = some src)).contains kv.1))
        = (!(dsts.contains kv.1 && kv.2 = src)) := by
    intro kv hkv
    have hget : msGet m kv.1 = some kv.2 := msGet_of_mem m kv.1 kv.2 hnd hkv
    congr 1
    rw [Bool.eq_iff_iff]
    simp [List.mem_filter, hget]
  rw [List.filter_congr hpt]

/-- C7 witness: clearing towards source `A` over destinations `B`, `D`, `E`
in the store `{B -> A, C -> A, D -> X}` removes exactly `B`. -/
theorem map_clear_to_removes_exactly_witness :
    (((([("B", "A"), ("C", "A"), ("D", "X")] : MappingSet).map Prod.fst).Nodup)
      ∧ checkException "A" [("B", "A"), ("C", "A"), ("D", "X")] = .ok ()
      ∧ isExcVal "A" = false)
    ∧ mapClearTo "A" ["B", "D", "E"] [("B", "A"), ("C", "A"), ("D", "X")]
        = (.ok (), ([("B", "A"), ("C", "A"), ("D", "X")] : MappingSet).filter
            (fun kv => !(["B", "D", "E"].contains kv.1 && kv.2 = "A"))) :=
  ⟨⟨by decide, rfl, rfl⟩,
    map_clear_to_removes_exactly "A" ["B", "D", "E"]
      [("B", "A"), ("C", "A"), ("D", "X")] (by decide) rfl rfl⟩

/-- C8: `map_tap` delegates verbatim to `map_uni`: identical result and
identical persisted store on every input and store state. -/
theorem map_tap_is_map_uni (ov : Bool) (src : String) (dsts : List String) (m : MappingSet) :
    mapTap ov src dsts m = mapUni ov src dsts m := rfl

/-- C9 (amended): `_check_exception(p)` raises exactly when the store holds
key `p` with a non-empty value whose lower-cased form contains `"except"`;
consequently, after `map_bidi("X", "my-except-port")` every later connect
or disconnect operation that exception-checks `X` — `map_bidi` on either
side, `map_uni` with `X` as source or destination, `map_clear` naming `X`,
`map_clear_to` with `X` as source — fails with an exception-port error
carrying the peer address, even though no fault was injected; but a
`map_clear_to` naming `X` only among destinations whose stored value
differs from the source does not examine `X` and succeeds. -/
theorem exception_check_characterization (ov : Bool) :
    (∀ (p : String) (m : MappingSet),
        checkException p m ≠ .ok ()
          ↔ ∃ v, msGet m p = some v ∧ v ≠ "" ∧ charsContain EXCEPTION.toList (lowerStr v) = true)
    ∧ mapBidi true "X" "my-except-port" [] = (.ok (), exceptNamedStore)
    ∧ (mapBidi ov "Z" "X" exceptNamedStore).1 = .error (.exceptionPort "my-except-port")
    ∧ (mapBidi ov "X" "Z" exceptNamedStore).1 = .error (.exceptionPort "my-except-port")
    ∧ (mapUni ov "X" ["Z"] exceptNamedStore).1 = .error (.exceptionPort "my-except-port")
    ∧ (mapUni ov "Z" ["X"] exceptNamedStore).1 = .error (.exceptionPort "my-except-port")
    ∧ (mapClear ["X"] exceptNamedStore).1 = .error (.exceptionPort "my-except-port")
    ∧ (mapClearTo "X" ["Z"] exceptNamedStore).1 = .error (.exceptionPort "my-except-port") := by
  cases ov <;>
    exact ⟨checkException_not_ok_iff, rfl, rfl, rfl, rfl, rfl, rfl, rfl⟩

/-- C9 counterexample: after `map_bidi("X", "my-except-port")` succeeds, the
disconnect operation `map_clear_to("Z", ["X"])` names `X` yet succeeds
(it never reaches an exception check on `X`), refuting "every later connect
or disconnect operation naming X fails". -/
theorem exception_named_port_counterexample :
    mapBidi true "X" "my-except-port" [] = (.ok (), exceptNamedStore)
    ∧ mapClearTo "Z" ["X"] exceptNamedStore = (.ok (), exceptNamedStore) :=
  ⟨rfl, rfl⟩

/-- C10: for an unmapped port `p`, `map_bidi(p, p)` succeeds under either
override setting and adds exactly the single entry `p -> p`; from the empty
store the result is exactly `{p -> p}`. -/
theorem map_bidi_self_single_entry (ov : Bool) (p : String) (m : MappingSet)
    (h : msGet m p = none) :
    mapBidi ov p p m = (.ok (), msSet m p p) ∧ mapBidi ov p p [] = (.ok (), [(p, p)]) := by
  have haux : ∀ m0 : MappingSet, msGet m0 p = none →
      mapBidi ov p p m0 = (.ok (), msSet m0 p p) := by
    intro m0 h0
    have hc : checkException p m0 = .ok () := checkException_of_get_none p m0 h0
    have hme : checkMappingExist ov p p m0 = .ok () := by
      unfold checkMappingExist
      cases ov
      · simp [h0]
      · simp
    unfold mapBidi
    simp only [hc, hme]
    rw [msSet_same (msSet m0 p p) p p (by rw [msGet_msSet]; simp)]
  exact ⟨haux m h, haux [] rfl⟩

/-- C10 witness: a self-connection of `A` on a store where `A` is unmapped. -/
theorem map_bidi_self_single_entry_witness :
    msGet [("B", "C")] "A" = none
    ∧ (mapBidi true "A" "A" [("B", "C")] = (.ok (), msSet [("B", "C")] "A" "A")
        ∧ mapBidi true "A" "A" [] = (.ok (), [("A", "A")])) :=
  ⟨rfl, map_bidi_self_single_entry true "A" [("B", "C")] rfl⟩

end TestSwitch
